import Mathlib

/-
Verification of the proxy Store of webext-redux (src/store/Store.js) against
its specification.  The JavaScript is shallowly embedded: JavaScript values
are the inductive type JSVal, the stateful Store instance is the record
StoreModel, and every handler of the source becomes a pure function from a
store and a message to a new store together with a list of observable actions
(deserialization attempts, state assignments, listener invocations, readiness
resolution).
-/

namespace WebextRedux

/-- A JavaScript value: undefined, null, booleans, (integer) numbers, strings
and plain objects given as ordered field lists.  Functions and object
reference identity are not represented; the store's handlers never compare
objects by identity except through strict equality, which is modelled below. -/
inductive JSVal where
  | undefined
  | null
  | boolean (b : Bool)
  | num (n : Int)
  | str (s : String)
  | obj (fields : List (String × JSVal))

/-- JavaScript truthiness (Boolean(v)). -/
def truthy : JSVal → Bool
  | .undefined => false
  | .null => false
  | .boolean b => b
  | .num n => n != 0
  | .str s => s != ""
  | .obj _ => true

/-- Whether typeof v === "string". -/
def isStringVal : JSVal → Bool
  | .str _ => true
  | _ => false

/-- JavaScript strict equality (===) on modelled values.  Two object values
are never strictly equal here: distinct object literals are distinct
references, and a reference cannot survive a message-passing boundary. -/
def jsStrictEq : JSVal → JSVal → Bool
  | .undefined, .undefined => true
  | .null, .null => true
  | .boolean a, .boolean b => a == b
  | .num a, .num b => a == b
  | .str a, .str b => a == b
  | _, _ => false

/-- First binding of a key in an ordered field list. -/
def lookupField : List (String × JSVal) → String → Option JSVal
  | [], _ => none
  | p :: rest, k => if p.1 == k then some p.2 else lookupField rest k

/-- Set a field, replacing it in place when present (as an object spread
\x7b...message, payload: x\x7d does) and appending it otherwise. -/
def setField (fs : List (String × JSVal)) (k : String) (v : JSVal) : List (String × JSVal) :=
  if fs.any (fun p => p.1 == k) then
    fs.map (fun p => if p.1 == k then (k, v) else p)
  else
    fs ++ [(k, v)]

/-- Property access v[k] on a value that is not null or undefined: object
lookup, or undefined for boxed primitives. -/
def getProp (v : JSVal) (k : String) : JSVal :=
  match v with
  | .obj fs => (lookupField fs k).getD .undefined
  | _ => .undefined

/-- Property access v[k] as JavaScript evaluates it: a TypeError on null and
undefined, getProp otherwise. -/
def jsMember (v : JSVal) (k : String) : Except String JSVal :=
  match v with
  | .undefined => .error "TypeError"
  | .null => .error "TypeError"
  | v => .ok (getProp v k)

/-- Modelled from the spec: the constants module (src/constants) is not under
src/.  Section 6 of the spec fixes the envelope type strings. -/
def FETCH_STATE_TYPE : String := "FETCH_STATE"

/-- Modelled from the spec: envelope type for a pushed full state. -/
def STATE_TYPE : String := "STATE"

/-- Modelled from the spec: envelope type for a pushed incremental diff. -/
def PATCH_STATE_TYPE : String := "PATCH_STATE"

/-- Modelled from the spec: envelope type for a remote dispatch call. -/
def DISPATCH_TYPE : String := "DISPATCH"

/-- Modelled from the spec: the default channel name from the constants
module; only its non-emptiness matters to the claims. -/
def DEFAULT_CHANNEL_NAME : String := "webext.redux"

/-- An envelope as sent on the wire. -/
def mkEnvelope (type : String) (channelName : JSVal) (payload : JSVal) : JSVal :=
  .obj [("type", .str type), ("channelName", channelName), ("payload", payload)]

/-- The mutable fields of a Store instance that the claims concern.  The
serializer, deserializer and patch strategy are passed to each handler as
function arguments instead of being stored, and readyPromise is represented by
the readyResolved flag together with the queue of patches awaiting it. -/
structure StoreModel where
  channelName : JSVal
  state : JSVal
  listeners : List Nat
  readyResolved : Bool
  pendingPatches : List JSVal

/-- Observable actions of a handler: a deserialization attempt on a payload,
an assignment to this.state, a listener invocation, and a call to the
internal readyResolve. -/
inductive Act where
  | deserializeAttempt (payload : JSVal)
  | assign (newState : JSVal)
  | invoke (listener : Nat)
  | resolveReady

/-- replaceState: overwrite the state wholesale, then notify every listener
registered at that moment, in registration order. -/
def replaceState (s : StoreModel) (state : JSVal) : StoreModel × List Act :=
  ({ s with state := state }, Act.assign state :: s.listeners.map Act.invoke)

/-- patchState: when readiness has resolved, apply the patch strategy to the
current state and the difference, assign the result and notify listeners;
before readiness, the call suspends on readyPromise, which is modelled by
queueing the difference with no other effect. -/
def patchState (patchStrategy : JSVal → JSVal → JSVal) (s : StoreModel)
    (difference : JSVal) : StoreModel × List Act :=
  if s.readyResolved then
    let newState := patchStrategy s.state difference
    ({ s with state := newState }, Act.assign newState :: s.listeners.map Act.invoke)
  else
    ({ s with pendingPatches := s.pendingPatches ++ [difference] }, [])

/-- Resumption of the patchState calls that were suspended on readyPromise:
each queued difference is applied in arrival order, with the listener
notifications of patchState. -/
def drainPatches (patchStrategy : JSVal → JSVal → JSVal) :
    StoreModel → List JSVal → StoreModel × List Act
  | s, [] => (s, [])
  | s, d :: ds =>
    let newState := patchStrategy s.state d
    let s1 := { s with state := newState }
    let rest := drainPatches patchStrategy s1 ds
    (rest.1, (Act.assign newState :: s1.listeners.map Act.invoke) ++ rest.2)

/-- The readiness resolution step shared by the STATE case and
initializeStore: if readyResolved is still false, set it and call
readyResolve, which releases every patchState call suspended on
readyPromise. -/
def resolveReadiness (patchStrategy : JSVal → JSVal → JSVal) (s : StoreModel) :
    StoreModel × List Act :=
  if s.readyResolved then (s, [])
  else
    let s1 : StoreModel :=
      { s with readyResolved := true, pendingPatches := [] }
    let rest := drainPatches patchStrategy s1 s.pendingPatches
    (rest.1, Act.resolveReady :: rest.2)

/-- shouldDeserialize from the source: the message is truthy, its type is a
string, and its channelName strictly equals this store's channelName. -/
def shouldDeserialize (s : StoreModel) (message : JSVal) : Bool :=
  truthy message && isStringVal (getProp message "type") &&
    jsStrictEq (getProp message "channelName") s.channelName

/-- Modelled from the spec: the serialization module (src/serialization) is
not under src/.  Per the Serialization Boundary of the spec and the source
comment on shouldDeserialize, the wrapped listener receives the message with
its payload deserialized when the predicate passes, and the raw message
otherwise; the listener itself is called in both cases. -/
def deserializedMessage (deserializer : JSVal → JSVal) (message : JSVal) : JSVal :=
  match message with
  | .obj fs => .obj (setField fs "payload" (deserializer (getProp message "payload")))
  | v => v

/-- The body of the listener the constructor registers on the port: drop the
message unless it is truthy and addressed to this channel, then react to its
type (STATE replaces state and resolves readiness, PATCH_STATE patches,
anything else does nothing). -/
def portListenerBody (patchStrategy : JSVal → JSVal → JSVal) (s : StoreModel)
    (message : JSVal) : StoreModel × List Act :=
  if !truthy message || !jsStrictEq (getProp message "channelName") s.channelName then
    (s, [])
  else if jsStrictEq (getProp message "type") (.str STATE_TYPE) then
    let r1 := replaceState s (getProp message "payload")
    let r2 := resolveReadiness patchStrategy r1.1
    (r2.1, r1.2 ++ r2.2)
  else if jsStrictEq (getProp message "type") (.str PATCH_STATE_TYPE) then
    patchState patchStrategy s (getProp message "payload")
  else
    (s, [])

/-- One inbound message through the serializedPortListener: the payload is
deserialized exactly when shouldDeserialize passes, and the listener body then
runs on the (possibly transformed) message. -/
def handlePortMessage (deserializer : JSVal → JSVal)
    (patchStrategy : JSVal → JSVal → JSVal) (s : StoreModel)
    (rawMessage : JSVal) : StoreModel × List Act :=
  if shouldDeserialize s rawMessage then
    let r := portListenerBody patchStrategy s (deserializedMessage deserializer rawMessage)
    (r.1, Act.deserializeAttempt (getProp rawMessage "payload") :: r.2)
  else
    portListenerBody patchStrategy s rawMessage

/-- initializeStore, the callback of the initial FETCH_STATE request: when
the response is truthy and of type FETCH_STATE, replace the state with the
deserialized payload and then resolve readiness if not already resolved. -/
def initializeStore (deserializer : JSVal → JSVal)
    (patchStrategy : JSVal → JSVal → JSVal) (s : StoreModel)
    (message : JSVal) : StoreModel × List Act :=
  if truthy message && jsStrictEq (getProp message "type") (.str FETCH_STATE_TYPE) then
    let payload := getProp message "payload"
    let r1 := replaceState s (deserializer payload)
    let r2 := resolveReadiness patchStrategy r1.1
    (r2.1, Act.deserializeAttempt payload :: (r1.2 ++ r2.2))
  else
    (s, [])

/-- subscribe: append the listener to the registry. -/
def subscribe (listeners : List Nat) (listener : Nat) : List Nat :=
  listeners ++ [listener]

/-- The unsubscribe closure returned by subscribe: keep exactly the registered
listeners that are not strictly equal to the captured one. -/
def unsubscribe (listeners : List Nat) (listener : Nat) : List Nat :=
  listeners.filter (fun l => l != listener)

/-- The events a Store instance can observe after construction. -/
inductive Ev where
  | port (message : JSVal)
  | fetchResponse (message : JSVal)
  | subscribeEv (listener : Nat)
  | unsubscribeEv (listener : Nat)
  | patchCall (difference : JSVal)
  | replaceCall (newState : JSVal)

/-- One event of the instance's life. -/
def stepEv (deserializer : JSVal → JSVal)
    (patchStrategy : JSVal → JSVal → JSVal) (s : StoreModel) :
    Ev → StoreModel × List Act
  | .port m => handlePortMessage deserializer patchStrategy s m
  | .fetchResponse m => initializeStore deserializer patchStrategy s m
  | .subscribeEv l => ({ s with listeners := subscribe s.listeners l }, [])
  | .unsubscribeEv l => ({ s with listeners := unsubscribe s.listeners l }, [])
  | .patchCall d => patchState patchStrategy s d
  | .replaceCall v => replaceState s v

/-- Run a sequence of events, concatenating the emitted actions. -/
def run (deserializer : JSVal → JSVal)
    (patchStrategy : JSVal → JSVal → JSVal) (s : StoreModel) :
    List Ev → StoreModel × List Act
  | [] => (s, [])
  | e :: es =>
    let r1 := stepEv deserializer patchStrategy s e
    let r2 := run deserializer patchStrategy r1.1 es
    (r2.1, r1.2 ++ r2.2)

/-- The store as the constructor leaves it: empty listener registry, readiness
pending, no suspended patches. -/
def initialStore (channelName : JSVal) (state : JSVal) : StoreModel :=
  { channelName := channelName, state := state, listeners := [],
    readyResolved := false, pendingPatches := [] }

/-- Whether the constructor threw. -/
def isConfigError : Except String StoreModel → Bool
  | .error _ => true
  | .ok _ => false

/-- How many times the internal readyResolve was called in a trace. -/
def countResolve : List Act → Nat
  | [] => 0
  | .resolveReady :: rest => countResolve rest + 1
  | _ :: rest => countResolve rest

/-- The listeners a trace invokes, in order. -/
def invokedListeners : List Act → List Nat
  | [] => []
  | .invoke l :: rest => l :: invokedListeners rest
  | _ :: rest => invokedListeners rest

/-- The value of the last assignment to this.state in a trace, if any. -/
def lastAssign : List Act → Option JSVal
  | [] => none
  | .assign v :: rest =>
    match lastAssign rest with
    | some w => some w
    | none => some v
  | _ :: rest => lastAssign rest

/-- Auxiliary checker for wellNotified: the first argument is the full
listener registry, the second the tail of it still owed an invocation after
the latest assignment. -/
def wellNotifiedAux (L : List Nat) : List Nat → List Act → Bool
  | [], [] => true
  | _ :: _, [] => false
  | [], .assign _ :: rest => wellNotifiedAux L L rest
  | [], .invoke _ :: _ => false
  | [], .deserializeAttempt _ :: rest => wellNotifiedAux L [] rest
  | [], .resolveReady :: rest => wellNotifiedAux L [] rest
  | e :: es, .invoke l :: rest => e == l && wellNotifiedAux L es rest
  | _ :: _, .assign _ :: _ => false
  | _ :: _, .deserializeAttempt _ :: _ => false
  | _ :: _, .resolveReady :: _ => false

/-- A trace is well notified for registry L when every assignment to the
state is immediately followed by one invocation of each listener of L in
registration order, and no invocation happens outside such a block. -/
def wellNotified (L : List Nat) (acts : List Act) : Bool :=
  wellNotifiedAux L [] acts

-- Dispatch -------------------------------------------------------------

/-- The diagnostic text the source calls backgroundErrPrefix (renamed here);
it opens every error produced by a rejected dispatch. -/
def backgroundErrHeader : String :=
  "\nLooks like there is an error in the background page. " ++
    "You might want to inspect your background page for more details.\n"

/-- String(v), the string JavaScript interpolates for v in a template
literal. -/
def jsToString : JSVal → String
  | .undefined => "undefined"
  | .null => "null"
  | .boolean b => if b then "true" else "false"
  | .num n => toString n
  | .str s => s
  | .obj _ => "[object Object]"

/-- The enumerable string-keyed properties lodash assignIn reads off a
source value: an object's own fields, a string's character indices, and
nothing for the other primitives. -/
def keysInFields : JSVal → List (String × JSVal)
  | .obj fs => fs
  | .str s => (s.toList.enum).map (fun p => (toString p.1, JSVal.str (String.mk [p.2])))
  | _ => []

/-- lodash assignIn(dest, source): copy the enumerable properties of source
onto dest, source winning on key collisions. -/
def assignIn (dest : JSVal) (source : JSVal) : JSVal :=
  match dest with
  | .obj fs => .obj ((keysInFields source).foldl (fun acc kv => setField acc kv.1 kv.2) fs)
  | v => v

/-- new Error(message), modelled as an object whose message property holds
the message text. -/
def mkError (message : String) : JSVal :=
  .obj [("message", .str message)]

/-- What a dispatch promise does: reject with an error value, or resolve. -/
inductive DispatchOutcome where
  | rejected (err : JSVal)
  | resolved (v : JSVal)

/-- The DISPATCH envelope dispatch sends for an action. -/
def dispatchMessage (channelName : JSVal) (data : JSVal) : JSVal :=
  .obj [("type", .str DISPATCH_TYPE), ("channelName", channelName), ("payload", data)]

/-- The response callback of dispatch.  The deserializer may throw, which the
source swallows, keeping the raw value; lastError stands for
browserAPI.runtime.lastError at the time the callback fires.  The typeof
guard on this.deserializer is omitted because the constructor has already
established that it is a function. -/
def dispatchResponseHandler (deserializer : JSVal → Except String JSVal)
    (lastError : JSVal) (resp : JSVal) : DispatchOutcome :=
  if !truthy resp then
    let bgErr := mkError (backgroundErrHeader ++ jsToString lastError)
    .rejected (assignIn bgErr lastError)
  else
    let error := getProp resp "error"
    let rawValue := getProp resp "value"
    let value :=
      match deserializer rawValue with
      | .ok v => v
      | .error _ => rawValue
    if truthy error then
      let bgErr := mkError (backgroundErrHeader ++ jsToString error)
      .rejected (assignIn bgErr error)
    else
      .resolved (if truthy value then getProp value "payload" else value)

-- Construction ---------------------------------------------------------

/-- A constructor option that must be a function: absent (so the default,
itself a function, applies), a supplied function, or a supplied non-function
value. -/
inductive FnOpt where
  | absent
  | func
  | nonFunction (v : JSVal)

/-- Whether typeof of the resolved option is "function". -/
def FnOpt.isFunction : FnOpt → Bool
  | .absent => true
  | .func => true
  | .nonFunction _ => false

/-- The options bag passed to the constructor; none stands for a property
that is undefined, so that the parameter default applies to it. -/
structure StoreOptions where
  channelName : Option JSVal := none
  state : Option JSVal := none
  serializer : FnOpt := .absent
  deserializer : FnOpt := .absent
  patchStrategy : FnOpt := .absent

/-- The side effects the constructor performs after validation, in source
order: the FETCH_STATE request, then the registration of the port
listener. -/
inductive Effect where
  | sendMessage (message : JSVal)
  | addListener

/-- The channelName after parameter defaulting. -/
def resolvedChannelName (opts : StoreOptions) : JSVal :=
  opts.channelName.getD (.str DEFAULT_CHANNEL_NAME)

/-- The FETCH_STATE request the constructor sends (it has no payload
field). -/
def fetchStateMessage (channelName : JSVal) : JSVal :=
  .obj [("type", .str FETCH_STATE_TYPE), ("channelName", channelName)]

/-- The constructor: validate the options in source order, throwing before
any side effect, and otherwise produce the initial store after sending the
FETCH_STATE request and registering the port listener. -/
def construct (opts : StoreOptions) : Except String StoreModel × List Effect :=
  let channelName := resolvedChannelName opts
  if !truthy channelName then
    (.error "channelName is required in options", [])
  else if !opts.serializer.isFunction then
    (.error "serializer must be a function", [])
  else if !opts.deserializer.isFunction then
    (.error "deserializer must be a function", [])
  else if !opts.patchStrategy.isFunction then
    (.error "patchStrategy must be one of the included patching strategies or a custom patching function", [])
  else
    (.ok (initialStore channelName (opts.state.getD (.obj []))),
      [Effect.sendMessage (fetchStateMessage channelName), Effect.addListener])

-- Helper lemmas ---------------------------------------------------------

lemma count_unsubscribe_self (ls : List Nat) (l : Nat) :
    (unsubscribe ls l).count l = 0 := by
  induction ls with
  | nil => rfl
  | cons a rest ih =>
    simp only [unsubscribe, List.filter_cons] at ih ⊢
    by_cases h : a = l
    · have hb : (a != l) = false := by simp [h]
      simpa [hb] using ih
    · have hb : (a != l) = true := bne_iff_ne.mpr h
      simp [hb, List.count_cons, h, ih]

lemma count_unsubscribe_other (ls : List Nat) (l x : Nat) (hx : x ≠ l) :
    (unsubscribe ls l).count x = ls.count x := by
  induction ls with
  | nil => rfl
  | cons a rest ih =>
    simp only [unsubscribe, List.filter_cons] at ih ⊢
    by_cases h : a = l
    · have hb : (a != l) = false := by simp [h]
      have hlx : (a == x) = false := by
        refine beq_eq_false_iff_ne.mpr ?_
        rw [h]
        exact Ne.symm hx
      simp [hb, List.count_cons, hlx, ih]
    · have hb : (a != l) = true := bne_iff_ne.mpr h
      simp [hb, List.count_cons, ih]

lemma unsubscribe_sublist (ls : List Nat) (l : Nat) :
    List.Sublist (unsubscribe ls l) ls :=
  List.filter_sublist ls

lemma unsubscribe_idem (ls : List Nat) (l : Nat) :
    unsubscribe (unsubscribe ls l) l = unsubscribe ls l := by
  simp [unsubscribe, List.filter_filter]

lemma unsubscribe_not_mem (ls : List Nat) (l : Nat) (h : l ∉ ls) :
    unsubscribe ls l = ls := by
  refine List.filter_eq_self.mpr ?_
  intro a ha
  exact bne_iff_ne.mpr (fun hal => h (hal ▸ ha))

-- C5 ---------------------------------------------------------------------

/-- Claim C5 as stated is false: with duplicates permitted, subscribing the
same listener twice and invoking the unsubscribe function returned by the
first subscription removes both occurrences, not exactly the one listener
entry, so the registry ends empty instead of keeping one copy. -/
theorem C5_counterexample :
    unsubscribe (subscribe (subscribe [] 0) 0) 0 = [] ∧
      unsubscribe (subscribe (subscribe [] 0) 0) 0 ≠ [0] := by
  decide

/-- Claim C5 amended: subscribe appends the listener (duplicates permitted,
insertion order kept); the returned unsubscribe removes every occurrence that
is identical to that listener (so all duplicates of it go at once), keeps the
other listeners in their order, is a no-op when invoked again or when the
listener was already removed, and subscribing a fresh listener and then
unsubscribing it restores the previous registry. -/
theorem C5_unsubscribe_removes_by_identity (ls : List Nat) (l : Nat) :
    (unsubscribe ls l).count l = 0 ∧
    (∀ x : Nat, x ≠ l → (unsubscribe ls l).count x = ls.count x) ∧
    List.Sublist (unsubscribe ls l) ls ∧
    unsubscribe (unsubscribe ls l) l = unsubscribe ls l ∧
    (l ∉ ls → unsubscribe ls l = ls) ∧
    (l ∉ ls → unsubscribe (subscribe ls l) l = ls) := by
  refine ⟨count_unsubscribe_self ls l, fun x hx => count_unsubscribe_other ls l x hx,
    unsubscribe_sublist ls l, unsubscribe_idem ls l, unsubscribe_not_mem ls l, fun h => ?_⟩
  have : unsubscribe (ls ++ [l]) l = unsubscribe ls l ++ unsubscribe [l] l := by
    simp [unsubscribe]
  simp only [subscribe, this, unsubscribe_not_mem ls l h]
  simp [unsubscribe, List.filter]

/-- Witness for C5: a concrete registry with listeners 1 and 2, where
unsubscribing 2 keeps 1, is idempotent, and round-trips. -/
theorem C5_unsubscribe_removes_by_identity_witness :
    (unsubscribe [1, 2] 2).count 2 = 0 ∧ (1 : Nat) ≠ 2 ∧
      (unsubscribe [1, 2] 2).count 1 = List.count 1 [1, 2] ∧
      (2 : Nat) ∉ [1] ∧ unsubscribe (subscribe [1] 2) 2 = [1] := by
  have h := C5_unsubscribe_removes_by_identity [1, 2] 2
  have h2 := C5_unsubscribe_removes_by_identity [1] 2
  exact ⟨h.1, by decide, h.2.1 1 (by decide), by decide, h2.2.2.2.2.2 (by decide)⟩

-- C6 ---------------------------------------------------------------------

/-- Claim C6: dispatch rejects exactly when the transport response is falsy or
carries a truthy error field; a falsy response rejects with an Error whose
message is the diagnostic header followed by the stringified last transport
error and whose properties merge in those of that error, and a truthy error
field rejects with the header followed by the stringified error field with the
error field's own properties merged on. -/
theorem C6_dispatch_reject_cases (deserializer : JSVal → Except String JSVal)
    (lastError resp : JSVal) :
    ((∃ e, dispatchResponseHandler deserializer lastError resp = .rejected e) ↔
      (truthy resp = false ∨ truthy (getProp resp "error") = true)) ∧
    (truthy resp = false →
      dispatchResponseHandler deserializer lastError resp =
        .rejected (assignIn (mkError (backgroundErrHeader ++ jsToString lastError)) lastError)) ∧
    (truthy resp = true → truthy (getProp resp "error") = true →
      dispatchResponseHandler deserializer lastError resp =
        .rejected (assignIn (mkError (backgroundErrHeader ++ jsToString (getProp resp "error")))
          (getProp resp "error"))) := by
  by_cases h1 : truthy resp
  · by_cases h2 : truthy (getProp resp "error")
    · simp [dispatchResponseHandler, h1, h2]
    · simp [dispatchResponseHandler, h1, h2]
  · simp [dispatchResponseHandler, h1]

/-- Witness for C6 at concrete responses: a falsy response with a concrete
last error, and the response with error "boom". -/
theorem C6_dispatch_reject_cases_witness :
    (truthy .undefined = false →
      dispatchResponseHandler (fun v => .ok v) (.obj [("message", .str "net down")]) .undefined =
        .rejected (assignIn (mkError (backgroundErrHeader ++
          jsToString (.obj [("message", .str "net down")]))) (.obj [("message", .str "net down")]))) ∧
    (truthy (.obj [("error", .str "boom")]) = true →
      truthy (getProp (.obj [("error", .str "boom")]) "error") = true →
      dispatchResponseHandler (fun v => .ok v) .undefined (.obj [("error", .str "boom")]) =
        .rejected (assignIn (mkError (backgroundErrHeader ++
          jsToString (getProp (.obj [("error", .str "boom")]) "error")))
          (getProp (.obj [("error", .str "boom")]) "error"))) :=
  ⟨(C6_dispatch_reject_cases (fun v => .ok v) (.obj [("message", .str "net down")]) .undefined).2.1,
    (C6_dispatch_reject_cases (fun v => .ok v) .undefined (.obj [("error", .str "boom")])).2.2⟩

-- C7 ---------------------------------------------------------------------

/-- Claim C7: on a truthy response without a truthy error field, dispatch
deserializes response.value, falls back to the raw value when the
deserializer throws (still resolving, never rejecting), and resolves with
value.payload, which is undefined when the payload field is absent; in
particular, the response with value whose payload is 42 resolves, under the
identity deserializer, with 42. -/
theorem C7_dispatch_resolves_payload (deserializer : JSVal → Except String JSVal)
    (lastError resp : JSVal) :
    (truthy resp = true → truthy (getProp resp "error") = false →
      ((∀ msg, deserializer (getProp resp "value") = .error msg →
          dispatchResponseHandler deserializer lastError resp =
            .resolved (if truthy (getProp resp "value") then
                getProp (getProp resp "value") "payload"
              else getProp resp "value")) ∧
        (∀ v, deserializer (getProp resp "value") = .ok v →
          dispatchResponseHandler deserializer lastError resp =
            .resolved (if truthy v then getProp v "payload" else v)) ∧
        (∀ fs, deserializer (getProp resp "value") = .ok (.obj fs) →
          lookupField fs "payload" = none →
          dispatchResponseHandler deserializer lastError resp = .resolved .undefined))) ∧
    dispatchResponseHandler (fun v => .ok v) .undefined
        (.obj [("value", .obj [("payload", .num 42)])]) =
      .resolved (.num 42) := by
  constructor
  · intro h1 h2
    have hok : ∀ v, deserializer (getProp resp "value") = .ok v →
        dispatchResponseHandler deserializer lastError resp =
          .resolved (if truthy v then getProp v "payload" else v) := by
      intro v hv
      simp [dispatchResponseHandler, h1, h2, hv]
    refine ⟨?_, hok, ?_⟩
    · intro msg hmsg
      simp [dispatchResponseHandler, h1, h2, hmsg]
    · intro fs hfs hnone
      rw [hok (.obj fs) hfs]
      simp [truthy, getProp, hnone]
  · rfl

/-- Witness for C7: a response whose value deserializes to an object with no
payload field resolves with undefined, and a throwing deserializer falls back
to the raw value. -/
theorem C7_dispatch_resolves_payload_witness :
    dispatchResponseHandler (fun v => .ok v) .undefined
        (.obj [("value", .obj [("other", .num 1)])]) = .resolved .undefined ∧
    dispatchResponseHandler (fun _ => .error "parse") .undefined
        (.obj [("value", .num 5)]) = .resolved (if truthy (.num 5) then
          getProp (.num 5) "payload" else .num 5) :=
  ⟨(C7_dispatch_resolves_payload (fun v => .ok v) .undefined
      (.obj [("value", .obj [("other", .num 1)])])).1 rfl rfl |>.2.2
      [("other", .num 1)] rfl rfl,
    (C7_dispatch_resolves_payload (fun _ => .error "parse") .undefined
      (.obj [("value", .num 5)])).1 rfl rfl |>.1 "parse" rfl⟩

-- C10 --------------------------------------------------------------------

/-- Claim C10: when the (possibly deserialized) value of a truthy, non-error
response is falsy, dispatch resolves with that falsy value itself; the
short-circuit of value and value.payload never reads a property off null or
undefined, which would be a TypeError, as the last two conjuncts record. -/
theorem C10_dispatch_falsy_value (deserializer : JSVal → Except String JSVal)
    (lastError resp v : JSVal) :
    (truthy resp = true → truthy (getProp resp "error") = false →
      deserializer (getProp resp "value") = .ok v → truthy v = false →
      dispatchResponseHandler deserializer lastError resp = .resolved v) ∧
    (∀ msg, truthy resp = true → truthy (getProp resp "error") = false →
      deserializer (getProp resp "value") = .error msg →
      truthy (getProp resp "value") = false →
      dispatchResponseHandler deserializer lastError resp =
        .resolved (getProp resp "value")) ∧
    jsMember .null "payload" = .error "TypeError" ∧
    jsMember .undefined "payload" = .error "TypeError" := by
  refine ⟨?_, ?_, rfl, rfl⟩
  · intro h1 h2 hok hv
    simp [dispatchResponseHandler, h1, h2, hok, hv]
  · intro msg h1 h2 herr hv
    simp [dispatchResponseHandler, h1, h2, herr, hv]

/-- Witness for C10: a response whose value is null resolves with null, and a
response whose value is 0 under a throwing deserializer resolves with 0. -/
theorem C10_dispatch_falsy_value_witness :
    dispatchResponseHandler (fun v => .ok v) .undefined (.obj [("value", .null)]) =
      .resolved .null ∧
    dispatchResponseHandler (fun _ => .error "parse") .undefined (.obj [("value", .num 0)]) =
      .resolved (getProp (.obj [("value", .num 0)]) "value") :=
  ⟨(C10_dispatch_falsy_value (fun v => .ok v) .undefined (.obj [("value", .null)]) .null).1
      rfl rfl rfl rfl,
    (C10_dispatch_falsy_value (fun _ => .error "parse") .undefined
      (.obj [("value", .num 0)]) .undefined).2.1 "parse" rfl rfl rfl rfl⟩

-- C8 ---------------------------------------------------------------------

/-- Claim C8: construction throws exactly when the channel name is falsy
after defaulting or one of serializer, deserializer and patchStrategy is not
callable; on a throw no side effect has happened (no FETCH_STATE message is
sent and no listener is registered), and otherwise construction succeeds,
sends the FETCH_STATE request and registers the port listener. -/
theorem C8_construct_validation (opts : StoreOptions) :
    ((isConfigError (construct opts).1 = true) ↔
      (truthy (resolvedChannelName opts) = false ∨
        opts.serializer.isFunction = false ∨
        opts.deserializer.isFunction = false ∨
        opts.patchStrategy.isFunction = false)) ∧
    (isConfigError (construct opts).1 = true → (construct opts).2 = []) ∧
    (isConfigError (construct opts).1 = false →
      (construct opts).1 =
        .ok (initialStore (resolvedChannelName opts) (opts.state.getD (.obj []))) ∧
      (construct opts).2 =
        [Effect.sendMessage (fetchStateMessage (resolvedChannelName opts)),
          Effect.addListener]) := by
  by_cases h1 : truthy (resolvedChannelName opts)
  · by_cases h2 : opts.serializer.isFunction
    · by_cases h3 : opts.deserializer.isFunction
      · by_cases h4 : opts.patchStrategy.isFunction
        · simp [construct, isConfigError, h1, h2, h3, h4]
        · simp [construct, isConfigError, h1, h2, h3, h4]
      · simp [construct, isConfigError, h1, h2, h3]
    · simp [construct, isConfigError, h1, h2]
  · simp [construct, isConfigError, h1]

/-- Witness for C8: all-default options succeed with both effects in order,
and an empty channel name throws with no effect. -/
theorem C8_construct_validation_witness :
    (isConfigError (construct {}).1 = false →
      (construct {}).1 = .ok (initialStore (resolvedChannelName {}) ((Option.none).getD (.obj []))) ∧
      (construct {}).2 = [Effect.sendMessage (fetchStateMessage (resolvedChannelName {})),
        Effect.addListener]) ∧
    (isConfigError (construct { channelName := some (.str "") }).1 = true →
      (construct { channelName := some (.str "") }).2 = []) :=
  ⟨(C8_construct_validation {}).2.2, (C8_construct_validation { channelName := some (.str "") }).2.1⟩

-- Trace lemmas ----------------------------------------------------------

lemma countResolve_append (a b : List Act) :
    countResolve (a ++ b) = countResolve a + countResolve b := by
  induction a with
  | nil => simp [countResolve]
  | cons x rest ih => cases x <;> simp [countResolve, ih] <;> omega

lemma countResolve_map_invoke (L : List Nat) :
    countResolve (L.map Act.invoke) = 0 := by
  induction L with
  | nil => rfl
  | cons x rest ih => simpa [countResolve] using ih

lemma countResolve_replaceState (s : StoreModel) (v : JSVal) :
    countResolve (replaceState s v).2 = 0 := by
  simp [replaceState, countResolve, countResolve_map_invoke]

lemma patchState_resolve (p : JSVal → JSVal → JSVal) (s : StoreModel) (d : JSVal) :
    countResolve (patchState p s d).2 = 0 ∧
      (patchState p s d).1.readyResolved = s.readyResolved := by
  by_cases h : s.readyResolved <;>
    simp [patchState, h, countResolve, countResolve_map_invoke]

lemma drainPatches_spec (p : JSVal → JSVal → JSVal) (ds : List JSVal) (s : StoreModel) :
    (drainPatches p s ds).1.channelName = s.channelName ∧
    (drainPatches p s ds).1.listeners = s.listeners ∧
    (drainPatches p s ds).1.readyResolved = s.readyResolved ∧
    (drainPatches p s ds).1.pendingPatches = s.pendingPatches ∧
    (drainPatches p s ds).1.state = ds.foldl p s.state ∧
    countResolve (drainPatches p s ds).2 = 0 := by
  induction ds generalizing s with
  | nil => simp [drainPatches, countResolve]
  | cons d rest ih =>
    have h := ih { s with state := p s.state d }
    simp only [drainPatches, List.foldl_cons]
    refine ⟨h.1, h.2.1, h.2.2.1, h.2.2.2.1, h.2.2.2.2.1, ?_⟩
    simp [countResolve_append, countResolve, countResolve_map_invoke, h.2.2.2.2.2]

lemma resolveReadiness_spec (p : JSVal → JSVal → JSVal) (s : StoreModel) :
    (resolveReadiness p s).1.readyResolved = true ∧
    (resolveReadiness p s).1.channelName = s.channelName ∧
    (resolveReadiness p s).1.listeners = s.listeners ∧
    countResolve (resolveReadiness p s).2 = (if s.readyResolved then 0 else 1) := by
  by_cases h : s.readyResolved
  · simp [resolveReadiness, h, countResolve]
  · have hd := drainPatches_spec p s.pendingPatches
      { s with readyResolved := true, pendingPatches := [] }
    simp only [resolveReadiness, h]
    simp [countResolve, hd.1, hd.2.1, hd.2.2.1, hd.2.2.2.2.2]

lemma portListenerBody_resolve (p : JSVal → JSVal → JSVal) (s : StoreModel) (m : JSVal) :
    (s.readyResolved = true →
      (portListenerBody p s m).1.readyResolved = true ∧
        countResolve (portListenerBody p s m).2 = 0) ∧
    countResolve (portListenerBody p s m).2 ≤ 1 ∧
    ((portListenerBody p s m).1.readyResolved = false →
      countResolve (portListenerBody p s m).2 = 0) := by
  unfold portListenerBody
  split
  · simp [countResolve]
  · split
    · have hr := resolveReadiness_spec p (replaceState s (getProp m "payload")).1
      have hflag : (replaceState s (getProp m "payload")).1.readyResolved = s.readyResolved := rfl
      refine ⟨fun hs => ⟨hr.1, ?_⟩, ?_, fun habs => ?_⟩
      · simp [countResolve_append, countResolve_replaceState, hr.2.2.2, hflag, hs]
      · by_cases hs : s.readyResolved <;>
          simp [countResolve_append, countResolve_replaceState, hr.2.2.2, hflag, hs]
      · rw [hr.1] at habs
        cases habs
    · split
      · have hp := patchState_resolve p s (getProp m "payload")
        refine ⟨fun hs => ⟨by rw [hp.2]; exact hs, hp.1⟩, by simp [hp.1], fun _ => hp.1⟩
      · simp [countResolve]

lemma handlePortMessage_resolve (d : JSVal → JSVal) (p : JSVal → JSVal → JSVal)
    (s : StoreModel) (m : JSVal) :
    (s.readyResolved = true →
      (handlePortMessage d p s m).1.readyResolved = true ∧
        countResolve (handlePortMessage d p s m).2 = 0) ∧
    countResolve (handlePortMessage d p s m).2 ≤ 1 ∧
    ((handlePortMessage d p s m).1.readyResolved = false →
      countResolve (handlePortMessage d p s m).2 = 0) := by
  unfold handlePortMessage
  split
  · have hb := portListenerBody_resolve p s (deserializedMessage d m)
    refine ⟨fun hs => ⟨(hb.1 hs).1, ?_⟩, ?_, fun habs => ?_⟩
    · simp [countResolve, (hb.1 hs).2]
    · simpa [countResolve] using hb.2.1
    · simpa [countResolve] using hb.2.2 habs
  · exact portListenerBody_resolve p s m

lemma initializeStore_resolve (d : JSVal → JSVal) (p : JSVal → JSVal → JSVal)
    (s : StoreModel) (m : JSVal) :
    (s.readyResolved = true →
      (initializeStore d p s m).1.readyResolved = true ∧
        countResolve (initializeStore d p s m).2 = 0) ∧
    countResolve (initializeStore d p s m).2 ≤ 1 ∧
    ((initializeStore d p s m).1.readyResolved = false →
      countResolve (initializeStore d p s m).2 = 0) := by
  unfold initializeStore
  split
  · have hr := resolveReadiness_spec p (replaceState s (d (getProp m "payload"))).1
    have hflag : (replaceState s (d (getProp m "payload"))).1.readyResolved = s.readyResolved := rfl
    refine ⟨fun hs => ⟨hr.1, ?_⟩, ?_, fun habs => ?_⟩
    · simp [countResolve, countResolve_append, countResolve_replaceState,
        countResolve_map_invoke, hr.2.2.2, hflag, hs]
    · by_cases hs : s.readyResolved <;>
        simp [countResolve, countResolve_append, countResolve_replaceState,
          countResolve_map_invoke, hr.2.2.2, hflag, hs]
    · rw [hr.1] at habs
      cases habs
  · simp [countResolve]

lemma stepEv_resolve (d : JSVal → JSVal) (p : JSVal → JSVal → JSVal)
    (s : StoreModel) (e : Ev) :
    (s.readyResolved = true →
      (stepEv d p s e).1.readyResolved = true ∧
        countResolve (stepEv d p s e).2 = 0) ∧
    countResolve (stepEv d p s e).2 ≤ 1 ∧
    ((stepEv d p s e).1.readyResolved = false →
      countResolve (stepEv d p s e).2 = 0) := by
  cases e with
  | port m => exact handlePortMessage_resolve d p s m
  | fetchResponse m => exact initializeStore_resolve d p s m
  | subscribeEv l => exact ⟨fun hs => ⟨hs, rfl⟩, by simp [stepEv, countResolve], fun _ => rfl⟩
  | unsubscribeEv l => exact ⟨fun hs => ⟨hs, rfl⟩, by simp [stepEv, countResolve], fun _ => rfl⟩
  | patchCall dd =>
    have hp := patchState_resolve p s dd
    exact ⟨fun hs => ⟨by rw [stepEv, hp.2]; exact hs, hp.1⟩, by simp [stepEv, hp.1], fun _ => hp.1⟩
  | replaceCall v =>
    exact ⟨fun hs => ⟨hs, countResolve_replaceState s v⟩,
      by simp [stepEv, countResolve_replaceState], fun _ => countResolve_replaceState s v⟩

lemma run_resolved (d : JSVal → JSVal) (p : JSVal → JSVal → JSVal)
    (es : List Ev) : ∀ s : StoreModel, s.readyResolved = true →
    countResolve (run d p s es).2 = 0 ∧ (run d p s es).1.readyResolved = true := by
  induction es with
  | nil => intro s h; exact ⟨rfl, h⟩
  | cons e rest ih =>
    intro s h
    have hs := (stepEv_resolve d p s e).1 h
    have h2 := ih (stepEv d p s e).1 hs.1
    constructor
    · simp [run, countResolve_append, hs.2, h2.1]
    · simpa [run] using h2.2

lemma run_le_one (d : JSVal → JSVal) (p : JSVal → JSVal → JSVal)
    (es : List Ev) : ∀ s : StoreModel, countResolve (run d p s es).2 ≤ 1 := by
  induction es with
  | nil => intro s; simp [run, countResolve]
  | cons e rest ih =>
    intro s
    have h1 := stepEv_resolve d p s e
    by_cases hf : (stepEv d p s e).1.readyResolved = true
    · have h2 := run_resolved d p rest (stepEv d p s e).1 hf
      simpa [run, countResolve_append, h2.1] using h1.2.1
    · have hc := h1.2.2 (by simpa using hf)
      have h2 := ih (stepEv d p s e).1
      simpa [run, countResolve_append, hc] using h2

-- C1 ---------------------------------------------------------------------

/-- Claim C1: over any sequence of events observed by a freshly constructed
store, in any order, the internal readyResolve is called at most once; and
once readiness has resolved, every later event keeps it resolved and never
calls readyResolve again. -/
theorem C1_readiness_resolves_at_most_once (deserializer : JSVal → JSVal)
    (patchStrategy : JSVal → JSVal → JSVal) (channelName state : JSVal)
    (events : List Ev) :
    countResolve
        (run deserializer patchStrategy (initialStore channelName state) events).2 ≤ 1 ∧
    (∀ (s : StoreModel) (e : Ev), s.readyResolved = true →
      (stepEv deserializer patchStrategy s e).1.readyResolved = true ∧
        countResolve (stepEv deserializer patchStrategy s e).2 = 0) :=
  ⟨run_le_one deserializer patchStrategy events (initialStore channelName state),
    fun s e hs => (stepEv_resolve deserializer patchStrategy s e).1 hs⟩

/-- Witness for C1: the channel "main" store that receives a STATE push, then
the FETCH_STATE response, then another STATE push resolves readiness at most
once; and a concrete already-resolved store stays resolved with no further
resolve call on another push. -/
theorem C1_readiness_resolves_at_most_once_witness :
    countResolve
        (run (fun v => v) (fun s _ => s) (initialStore (.str "main") (.obj []))
          [Ev.port (mkEnvelope STATE_TYPE (.str "main") (.num 1)),
            Ev.fetchResponse (mkEnvelope FETCH_STATE_TYPE (.str "main") (.num 2)),
            Ev.port (mkEnvelope STATE_TYPE (.str "main") (.num 3))]).2 ≤ 1 ∧
    (stepEv (fun v => v) (fun s _ => s)
        { initialStore (.str "main") (.obj []) with readyResolved := true }
        (Ev.port (mkEnvelope STATE_TYPE (.str "main") (.num 4)))).1.readyResolved = true := by
  have h := C1_readiness_resolves_at_most_once (fun v => v) (fun s _ => s)
    (.str "main") (.obj [])
    [Ev.port (mkEnvelope STATE_TYPE (.str "main") (.num 1)),
      Ev.fetchResponse (mkEnvelope FETCH_STATE_TYPE (.str "main") (.num 2)),
      Ev.port (mkEnvelope STATE_TYPE (.str "main") (.num 3))]
  exact ⟨h.1, (h.2 { initialStore (.str "main") (.obj []) with readyResolved := true }
      (Ev.port (mkEnvelope STATE_TYPE (.str "main") (.num 4))) rfl).1⟩

-- Notification lemmas ---------------------------------------------------

lemma wellNotifiedAux_map (L M : List Nat) (rest : List Act) :
    wellNotifiedAux L M (M.map Act.invoke ++ rest) = wellNotifiedAux L [] rest := by
  induction M with
  | nil => rfl
  | cons e es ih => simp [wellNotifiedAux, ih]

lemma wellNotifiedAux_append (L : List Nat) (Y : List Act)
    (hY : wellNotifiedAux L [] Y = true) :
    ∀ (X : List Act) (exp : List Nat), wellNotifiedAux L exp X = true →
      wellNotifiedAux L exp (X ++ Y) = true := by
  intro X
  induction X with
  | nil =>
    intro exp hX
    cases exp with
    | nil => simpa using hY
    | cons e es => simp [wellNotifiedAux] at hX
  | cons a X' ih =>
    intro exp hX
    cases exp with
    | nil =>
      cases a with
      | assign v =>
        simp only [wellNotifiedAux, List.cons_append] at hX ⊢
        exact ih L hX
      | invoke l => simp [wellNotifiedAux] at hX
      | deserializeAttempt pl =>
        simp only [wellNotifiedAux, List.cons_append] at hX ⊢
        exact ih [] hX
      | resolveReady =>
        simp only [wellNotifiedAux, List.cons_append] at hX ⊢
        exact ih [] hX
    | cons e es =>
      cases a with
      | invoke l =>
        simp only [wellNotifiedAux, List.cons_append, Bool.and_eq_true] at hX ⊢
        exact ⟨hX.1, ih es hX.2⟩
      | assign v => simp [wellNotifiedAux] at hX
      | deserializeAttempt pl => simp [wellNotifiedAux] at hX
      | resolveReady => simp [wellNotifiedAux] at hX

lemma wellNotifiedAux_state_block (L : List Nat) (v : JSVal) (rest : List Act) :
    wellNotifiedAux L [] (Act.assign v :: (L.map Act.invoke ++ rest)) =
      wellNotifiedAux L [] rest := by
  simp only [wellNotifiedAux]
  exact wellNotifiedAux_map L L rest

lemma wellNotified_notify_block (L : List Nat) (v : JSVal) :
    wellNotified L (Act.assign v :: L.map Act.invoke) = true := by
  have h := wellNotifiedAux_state_block L v []
  simpa [wellNotified] using h

lemma wellNotified_drainPatches (p : JSVal → JSVal → JSVal) (ds : List JSVal) :
    ∀ s : StoreModel, wellNotified s.listeners (drainPatches p s ds).2 = true := by
  induction ds with
  | nil => intro s; rfl
  | cons dd rest ih =>
    intro s
    have h := ih { s with state := p s.state dd }
    simp only [drainPatches, wellNotified, List.cons_append]
    rw [wellNotifiedAux_state_block]
    exact h

lemma wellNotified_resolveReadiness (p : JSVal → JSVal → JSVal) (s : StoreModel) :
    wellNotified s.listeners (resolveReadiness p s).2 = true := by
  by_cases h : s.readyResolved
  · simp [resolveReadiness, h, wellNotified, wellNotifiedAux]
  · simp only [resolveReadiness, h, if_neg, Bool.false_eq_true, wellNotified,
      wellNotifiedAux]
    exact wellNotified_drainPatches p s.pendingPatches
      { s with readyResolved := true, pendingPatches := [] }

lemma wellNotified_patchState (p : JSVal → JSVal → JSVal) (s : StoreModel) (dd : JSVal) :
    wellNotified s.listeners (patchState p s dd).2 = true := by
  by_cases h : s.readyResolved
  · simp only [patchState, h, if_pos]
    exact wellNotified_notify_block s.listeners (p s.state dd)
  · simp [patchState, h, wellNotified, wellNotifiedAux]

lemma wellNotified_portListenerBody (p : JSVal → JSVal → JSVal) (s : StoreModel)
    (m : JSVal) : wellNotified s.listeners (portListenerBody p s m).2 = true := by
  unfold portListenerBody
  split
  · rfl
  · split
    · exact wellNotifiedAux_append s.listeners _
        (wellNotified_resolveReadiness p (replaceState s (getProp m "payload")).1) _ []
        (wellNotified_notify_block s.listeners (getProp m "payload"))
    · split
      · exact wellNotified_patchState p s (getProp m "payload")
      · rfl

lemma wellNotified_handlePortMessage (d : JSVal → JSVal) (p : JSVal → JSVal → JSVal)
    (s : StoreModel) (m : JSVal) :
    wellNotified s.listeners (handlePortMessage d p s m).2 = true := by
  unfold handlePortMessage
  split
  · simp only [wellNotified, wellNotifiedAux]
    exact wellNotified_portListenerBody p s _
  · exact wellNotified_portListenerBody p s m

lemma wellNotified_initializeStore (d : JSVal → JSVal) (p : JSVal → JSVal → JSVal)
    (s : StoreModel) (m : JSVal) :
    wellNotified s.listeners (initializeStore d p s m).2 = true := by
  unfold initializeStore
  split
  · simp only [wellNotified, wellNotifiedAux]
    exact wellNotifiedAux_append s.listeners _
      (wellNotified_resolveReadiness p (replaceState s (d (getProp m "payload"))).1) _ []
      (wellNotified_notify_block s.listeners (d (getProp m "payload")))
  · rfl

lemma wellNotified_stepEv (d : JSVal → JSVal) (p : JSVal → JSVal → JSVal)
    (s : StoreModel) (e : Ev) :
    wellNotified s.listeners (stepEv d p s e).2 = true := by
  cases e with
  | port m => exact wellNotified_handlePortMessage d p s m
  | fetchResponse m => exact wellNotified_initializeStore d p s m
  | subscribeEv l => rfl
  | unsubscribeEv l => rfl
  | patchCall dd => exact wellNotified_patchState p s dd
  | replaceCall v => exact wellNotified_notify_block s.listeners v

-- Last-assignment lemmas -------------------------------------------------

lemma lastAssign_append (X Y : List Act) :
    lastAssign (X ++ Y) = (lastAssign Y).or (lastAssign X) := by
  induction X with
  | nil => simp [lastAssign]
  | cons a X' ih =>
    cases a with
    | assign v =>
      have hunf : lastAssign (Act.assign v :: (X' ++ Y)) =
          match lastAssign (X' ++ Y) with
          | some w => some w
          | none => some v := rfl
      rw [List.cons_append, hunf, ih]
      cases hY : lastAssign Y <;> cases hX : lastAssign X' <;>
        simp [lastAssign, Option.or, hX]
    | invoke l => simpa [lastAssign] using ih
    | deserializeAttempt pl => simpa [lastAssign] using ih
    | resolveReady => simpa [lastAssign] using ih

lemma lastAssign_map_invoke (L : List Nat) :
    lastAssign (L.map Act.invoke) = none := by
  induction L with
  | nil => rfl
  | cons x rest ih => simpa [lastAssign] using ih

lemma lastAssign_getD_append (s0 s1 s2 : JSVal) (a1 a2 : List Act)
    (h1 : s1 = (lastAssign a1).getD s0) (h2 : s2 = (lastAssign a2).getD s1) :
    s2 = (lastAssign (a1 ++ a2)).getD s0 := by
  rw [lastAssign_append]
  cases ha2 : lastAssign a2 with
  | some w =>
    rw [ha2] at h2
    simpa [Option.or] using h2
  | none =>
    rw [ha2] at h2
    cases ha1 : lastAssign a1 with
    | some w1 =>
      rw [ha1] at h1
      simp only [Option.or, Option.getD] at h1 h2 ⊢
      rw [h2, h1]
    | none =>
      rw [ha1] at h1
      simp only [Option.or, Option.getD] at h1 h2 ⊢
      rw [h2, h1]

lemma state_lastAssign_replaceState (s : StoreModel) (v : JSVal) :
    (replaceState s v).1.state = (lastAssign (replaceState s v).2).getD s.state := by
  simp [replaceState, lastAssign, lastAssign_map_invoke]

lemma state_lastAssign_patchState (p : JSVal → JSVal → JSVal) (s : StoreModel)
    (dd : JSVal) :
    (patchState p s dd).1.state = (lastAssign (patchState p s dd).2).getD s.state := by
  by_cases h : s.readyResolved
  · simp [patchState, h, lastAssign, lastAssign_map_invoke]
  · simp [patchState, h, lastAssign]

lemma state_lastAssign_drain (p : JSVal → JSVal → JSVal) (ds : List JSVal) :
    ∀ s : StoreModel,
      (drainPatches p s ds).1.state = (lastAssign (drainPatches p s ds).2).getD s.state := by
  induction ds with
  | nil => intro s; rfl
  | cons dd rest ih =>
    intro s
    simp only [drainPatches]
    refine lastAssign_getD_append s.state (p s.state dd) _ _ _ ?_ ?_
    · simp [lastAssign, lastAssign_map_invoke]
    · exact ih { s with state := p s.state dd }

lemma state_lastAssign_resolveReadiness (p : JSVal → JSVal → JSVal) (s : StoreModel) :
    (resolveReadiness p s).1.state =
      (lastAssign (resolveReadiness p s).2).getD s.state := by
  by_cases h : s.readyResolved
  · simp [resolveReadiness, h, lastAssign]
  · simp only [resolveReadiness, h, if_neg, Bool.false_eq_true, lastAssign]
    exact state_lastAssign_drain p s.pendingPatches _

lemma state_lastAssign_portListenerBody (p : JSVal → JSVal → JSVal) (s : StoreModel)
    (m : JSVal) :
    (portListenerBody p s m).1.state =
      (lastAssign (portListenerBody p s m).2).getD s.state := by
  unfold portListenerBody
  split
  · rfl
  · split
    · exact lastAssign_getD_append s.state
        (replaceState s (getProp m "payload")).1.state _ _ _
        (state_lastAssign_replaceState s (getProp m "payload"))
        (state_lastAssign_resolveReadiness p (replaceState s (getProp m "payload")).1)
    · split
      · exact state_lastAssign_patchState p s (getProp m "payload")
      · rfl

lemma state_lastAssign_handlePortMessage (d : JSVal → JSVal)
    (p : JSVal → JSVal → JSVal) (s : StoreModel) (m : JSVal) :
    (handlePortMessage d p s m).1.state =
      (lastAssign (handlePortMessage d p s m).2).getD s.state := by
  unfold handlePortMessage
  split
  · simp only [lastAssign]
    exact state_lastAssign_portListenerBody p s _
  · exact state_lastAssign_portListenerBody p s m

lemma state_lastAssign_initializeStore (d : JSVal → JSVal)
    (p : JSVal → JSVal → JSVal) (s : StoreModel) (m : JSVal) :
    (initializeStore d p s m).1.state =
      (lastAssign (initializeStore d p s m).2).getD s.state := by
  unfold initializeStore
  split
  · simp only [lastAssign]
    exact lastAssign_getD_append s.state
      (replaceState s (d (getProp m "payload"))).1.state _ _ _
      (state_lastAssign_replaceState s (d (getProp m "payload")))
      (state_lastAssign_resolveReadiness p (replaceState s (d (getProp m "payload"))).1)
  · rfl

lemma state_lastAssign_stepEv (d : JSVal → JSVal) (p : JSVal → JSVal → JSVal)
    (s : StoreModel) (e : Ev) :
    (stepEv d p s e).1.state = (lastAssign (stepEv d p s e).2).getD s.state := by
  cases e with
  | port m => exact state_lastAssign_handlePortMessage d p s m
  | fetchResponse m => exact state_lastAssign_initializeStore d p s m
  | subscribeEv l => rfl
  | unsubscribeEv l => rfl
  | patchCall dd => exact state_lastAssign_patchState p s dd
  | replaceCall v => exact state_lastAssign_replaceState s v

lemma invokedListeners_map (L : List Nat) :
    invokedListeners (L.map Act.invoke) = L := by
  induction L with
  | nil => rfl
  | cons x rest ih => simpa [invokedListeners] using ih

-- C2 ---------------------------------------------------------------------

/-- Claim C2: a patchState call made before readiness resolves leaves the
state untouched and performs no listener invocation, only queueing the
difference on readyPromise; a call once readiness has resolved synchronously
computes patchStrategy(currentState, diff), assigns the result as the new
state and notifies every listener in registration order; and when readiness
resolves, each suspended difference is applied through the patch strategy in
arrival order with full listener notification. -/
theorem C2_patchState_waits_for_readiness (patchStrategy : JSVal → JSVal → JSVal)
    (s : StoreModel) (difference : JSVal) :
    (s.readyResolved = false →
      (patchState patchStrategy s difference).1.state = s.state ∧
      (patchState patchStrategy s difference).2 = [] ∧
      (patchState patchStrategy s difference).1.pendingPatches =
        s.pendingPatches ++ [difference]) ∧
    (s.readyResolved = true →
      patchState patchStrategy s difference =
        ({ s with state := patchStrategy s.state difference },
          Act.assign (patchStrategy s.state difference) ::
            s.listeners.map Act.invoke)) ∧
    (s.readyResolved = false →
      (resolveReadiness patchStrategy s).1.state =
        s.pendingPatches.foldl patchStrategy s.state ∧
      (resolveReadiness patchStrategy s).1.readyResolved = true ∧
      wellNotified s.listeners (resolveReadiness patchStrategy s).2 = true) := by
  refine ⟨fun h => ?_, fun h => ?_, fun h => ?_⟩
  · simp [patchState, h]
  · simp [patchState, h]
  · have hd := drainPatches_spec patchStrategy s.pendingPatches
      { s with readyResolved := true, pendingPatches := [] }
    have hr := resolveReadiness_spec patchStrategy s
    refine ⟨?_, hr.1, wellNotified_resolveReadiness patchStrategy s⟩
    simp only [resolveReadiness, h, Bool.false_eq_true, if_false]
    exact hd.2.2.2.2.1

/-- Witness for C2: a pending store with one listener and one queued patch;
before readiness a patch only queues, and resolution folds the queued patches
into the state. -/
theorem C2_patchState_waits_for_readiness_witness :
    ((initialStore (.str "main") (.num 0)).readyResolved = false ∧
      (patchState (fun _ dd => dd) (initialStore (.str "main") (.num 0)) (.num 5)).1.state =
        (initialStore (.str "main") (.num 0)).state ∧
      (patchState (fun _ dd => dd) (initialStore (.str "main") (.num 0)) (.num 5)).2 = []) ∧
    ({ initialStore (.str "main") (.num 0) with readyResolved := true } : StoreModel).readyResolved = true ∧
    (resolveReadiness (fun _ dd => dd)
        { initialStore (.str "main") (.num 0) with pendingPatches := [.num 5, .num 6] }).1.state =
      List.foldl (fun _ dd => dd) (.num 0) [.num 5, .num 6] := by
  have h1 := C2_patchState_waits_for_readiness (fun _ dd => dd)
    (initialStore (.str "main") (.num 0)) (.num 5)
  have h2 := C2_patchState_waits_for_readiness (fun _ dd => dd)
    { initialStore (.str "main") (.num 0) with pendingPatches := [.num 5, .num 6] } (.num 7)
  exact ⟨⟨rfl, (h1.1 rfl).1, (h1.1 rfl).2.1⟩, rfl, (h2.2.2 rfl).1⟩

-- C3 ---------------------------------------------------------------------

/-- Claim C3: replaceState and patchState (once past its readiness wait) each
invoke every listener registered at that moment exactly once, in registration
order; across every event the machine can observe, each assignment to the
state is immediately (synchronously) followed by exactly one invocation of
each currently registered listener in order, listeners are never invoked
outside such a mutation, and the state after a step is the value of the last
assignment of the step (so nothing mutates the state except those two
operations). -/
theorem C3_mutations_notify_listeners (deserializer : JSVal → JSVal)
    (patchStrategy : JSVal → JSVal → JSVal) :
    (∀ (s : StoreModel) (v : JSVal),
      invokedListeners (replaceState s v).2 = s.listeners) ∧
    (∀ (s : StoreModel) (dd : JSVal), s.readyResolved = true →
      invokedListeners (patchState patchStrategy s dd).2 = s.listeners) ∧
    (∀ (s : StoreModel) (e : Ev),
      wellNotified s.listeners (stepEv deserializer patchStrategy s e).2 = true) ∧
    (∀ (s : StoreModel) (e : Ev),
      (stepEv deserializer patchStrategy s e).1.state =
        (lastAssign (stepEv deserializer patchStrategy s e).2).getD s.state) := by
  refine ⟨fun s v => ?_, fun s dd h => ?_,
    fun s e => wellNotified_stepEv deserializer patchStrategy s e,
    fun s e => state_lastAssign_stepEv deserializer patchStrategy s e⟩
  · simp [replaceState, invokedListeners, invokedListeners_map]
  · simp [patchState, h, invokedListeners, invokedListeners_map]

/-- Witness for C3: a ready store with two listeners notifies 1 then 2 on a
patch, and a STATE push step keeps the trace well notified with the state
tracking the last assignment. -/
theorem C3_mutations_notify_listeners_witness :
    invokedListeners (replaceState
        { initialStore (.str "main") (.num 0) with listeners := [1, 2] } (.num 4)).2 = [1, 2] ∧
    ({ initialStore (.str "main") (.num 0) with listeners := [1, 2], readyResolved := true } : StoreModel).readyResolved = true ∧
    invokedListeners (patchState (fun _ dd => dd)
        { initialStore (.str "main") (.num 0) with listeners := [1, 2], readyResolved := true }
        (.num 5)).2 = [1, 2] ∧
    wellNotified [1, 2] (stepEv (fun v => v) (fun _ dd => dd)
        { initialStore (.str "main") (.num 0) with listeners := [1, 2] }
        (Ev.port (mkEnvelope STATE_TYPE (.str "main") (.num 7)))).2 = true := by
  have h := C3_mutations_notify_listeners (fun v => v) (fun _ dd => dd)
  exact ⟨h.1 { initialStore (.str "main") (.num 0) with listeners := [1, 2] } (.num 4),
    rfl,
    h.2.1 { initialStore (.str "main") (.num 0) with listeners := [1, 2], readyResolved := true }
      (.num 5) rfl,
    h.2.2.1 { initialStore (.str "main") (.num 0) with listeners := [1, 2] }
      (Ev.port (mkEnvelope STATE_TYPE (.str "main") (.num 7)))⟩

-- Deserialization-boundary lemmas ----------------------------------------

lemma lookupField_map_set (fs : List (String × JSVal)) (k k' : String) (v : JSVal)
    (h : k' ≠ k) :
    lookupField (fs.map (fun p => if p.1 == k then (k, v) else p)) k' =
      lookupField fs k' := by
  induction fs with
  | nil => rfl
  | cons q rest ih =>
    by_cases hq : (q.1 == k) = true
    · have hqk : q.1 = k := by simpa using hq
      have hk : (k == k') = false := beq_eq_false_iff_ne.mpr (Ne.symm h)
      have hq1 : (q.1 == k') = false := by rw [hqk]; exact hk
      simp [lookupField, hq, hk, hq1] at ih ⊢
      exact ih
    · simp only [List.map_cons, if_neg hq]
      by_cases hq2 : (q.1 == k') = true
      · simp [lookupField, hq2]
      · simp [lookupField, hq2] at ih ⊢
        exact ih

lemma lookupField_append_single (fs : List (String × JSVal)) (k k' : String)
    (v : JSVal) (h : k' ≠ k) :
    lookupField (fs ++ [(k, v)]) k' = lookupField fs k' := by
  induction fs with
  | nil =>
    have hk : (k == k') = false := beq_eq_false_iff_ne.mpr (Ne.symm h)
    simp [lookupField, hk]
  | cons q rest ih =>
    by_cases hq : (q.1 == k') = true
    · simp [lookupField, hq]
    · simp [lookupField, hq, ih]

lemma lookupField_setField_ne (fs : List (String × JSVal)) (k k' : String)
    (v : JSVal) (h : k' ≠ k) :
    lookupField (setField fs k v) k' = lookupField fs k' := by
  unfold setField
  split
  · exact lookupField_map_set fs k k' v h
  · exact lookupField_append_single fs k k' v h

lemma getProp_deserializedMessage_ne (d : JSVal → JSVal) (m : JSVal) (k : String)
    (h : k ≠ "payload") :
    getProp (deserializedMessage d m) k = getProp m k := by
  cases m with
  | obj fs => simp [deserializedMessage, getProp, lookupField_setField_ne fs "payload" k _ h]
  | undefined => rfl
  | null => rfl
  | boolean b => rfl
  | num n => rfl
  | str s => rfl

lemma truthy_deserializedMessage (d : JSVal → JSVal) (m : JSVal) :
    truthy (deserializedMessage d m) = truthy m := by
  cases m <;> rfl

lemma jsStrictEq_str (a b : String) :
    jsStrictEq (.str a) (.str b) = (a == b) := rfl

lemma jsStrictEq_str_of_not_string (x : JSVal) (t : String)
    (h : isStringVal x = false) : jsStrictEq x (.str t) = false := by
  cases x <;> simp [isStringVal, jsStrictEq] at h ⊢

-- C4 ---------------------------------------------------------------------

/-- Claim C4 as stated is false: an inbound envelope on the right channel
whose type is the unrecognized string "FOO" is not discarded before
deserialization; the deserializer does run on its payload (the trace shows
the deserialization attempt), even though the store is left unchanged. -/
theorem C4_counterexample :
    (handlePortMessage (fun v => v) (fun st _ => st)
        (initialStore (.str "test") (.obj []))
        (mkEnvelope "FOO" (.str "test") (.num 1))).2 =
      [Act.deserializeAttempt (.num 1)] ∧
    (handlePortMessage (fun v => v) (fun st _ => st)
        (initialStore (.str "test") (.obj []))
        (mkEnvelope "FOO" (.str "test") (.num 1))).2 ≠ [] ∧
    (handlePortMessage (fun v => v) (fun st _ => st)
        (initialStore (.str "test") (.obj []))
        (mkEnvelope "FOO" (.str "test") (.num 1))).1 =
      initialStore (.str "test") (.obj []) :=
  ⟨rfl, fun habs => List.noConfusion habs, rfl⟩

/-- Claim C4 amended: a falsy envelope, one whose channelName does not
strictly equal the store's, or one whose type is not a string is dropped
with no deserialization attempt, no state change and no listener invocation;
an envelope with a matching channel and a string type that is neither STATE
nor PATCH_STATE does get its payload deserialized, but is then discarded with
no state change and no listener invocation. -/
theorem C4_envelope_filtering (d : JSVal → JSVal) (p : JSVal → JSVal → JSVal)
    (s : StoreModel) (m : JSVal) :
    (truthy m = false → handlePortMessage d p s m = (s, [])) ∧
    (jsStrictEq (getProp m "channelName") s.channelName = false →
      handlePortMessage d p s m = (s, [])) ∧
    (isStringVal (getProp m "type") = false → handlePortMessage d p s m = (s, [])) ∧
    (∀ t : String, getProp m "type" = .str t → t ≠ STATE_TYPE → t ≠ PATCH_STATE_TYPE →
      truthy m = true → jsStrictEq (getProp m "channelName") s.channelName = true →
      handlePortMessage d p s m = (s, [Act.deserializeAttempt (getProp m "payload")])) := by
  refine ⟨fun h => ?_, fun h => ?_, fun h => ?_, fun t ht h1 h2 htr hch => ?_⟩
  · simp [handlePortMessage, shouldDeserialize, portListenerBody, h]
  · simp [handlePortMessage, shouldDeserialize, portListenerBody, h]
  · have hSd : shouldDeserialize s m = false := by
      simp [shouldDeserialize, h]
    have hState := jsStrictEq_str_of_not_string (getProp m "type") STATE_TYPE h
    have hPatch := jsStrictEq_str_of_not_string (getProp m "type") PATCH_STATE_TYPE h
    simp [handlePortMessage, hSd, portListenerBody, hState, hPatch]
  · have hSd : shouldDeserialize s m = true := by
      simp [shouldDeserialize, htr, ht, isStringVal, hch]
    have hch' : getProp (deserializedMessage d m) "channelName" = getProp m "channelName" :=
      getProp_deserializedMessage_ne d m "channelName" (by decide)
    have htype : getProp (deserializedMessage d m) "type" = getProp m "type" :=
      getProp_deserializedMessage_ne d m "type" (by decide)
    have hState : jsStrictEq (getProp (deserializedMessage d m) "type")
        (.str STATE_TYPE) = false := by
      rw [htype, ht]
      simpa [jsStrictEq] using beq_eq_false_iff_ne.mpr h1
    have hPatch : jsStrictEq (getProp (deserializedMessage d m) "type")
        (.str PATCH_STATE_TYPE) = false := by
      rw [htype, ht]
      simpa [jsStrictEq] using beq_eq_false_iff_ne.mpr h2
    simp [handlePortMessage, hSd, portListenerBody, truthy_deserializedMessage, htr,
      hch', hch, hState, hPatch]

/-- Witness for C4 at concrete envelopes: a mismatched channel is dropped
with no effect, and a matching-channel envelope with the unrecognized string
type "PING" is deserialized yet changes nothing. -/
theorem C4_envelope_filtering_witness :
    (jsStrictEq (getProp (mkEnvelope STATE_TYPE (.str "other") (.num 3)) "channelName")
        (initialStore (.str "main") (.obj [])).channelName = false ∧
      handlePortMessage (fun v => v) (fun st _ => st) (initialStore (.str "main") (.obj []))
        (mkEnvelope STATE_TYPE (.str "other") (.num 3)) =
        (initialStore (.str "main") (.obj []), [])) ∧
    handlePortMessage (fun v => v) (fun st _ => st) (initialStore (.str "main") (.obj []))
        (mkEnvelope "PING" (.str "main") (.num 3)) =
      (initialStore (.str "main") (.obj []),
        [Act.deserializeAttempt (getProp (mkEnvelope "PING" (.str "main") (.num 3)) "payload")]) := by
  have h1 := C4_envelope_filtering (fun v => v) (fun st _ => st)
    (initialStore (.str "main") (.obj [])) (mkEnvelope STATE_TYPE (.str "other") (.num 3))
  have h2 := C4_envelope_filtering (fun v => v) (fun st _ => st)
    (initialStore (.str "main") (.obj [])) (mkEnvelope "PING" (.str "main") (.num 3))
  exact ⟨⟨rfl, h1.2.1 rfl⟩, h2.2.2.2 "PING" rfl (by decide) (by decide) rfl rfl⟩

-- C9 ---------------------------------------------------------------------

/-- Claim C9: both initialization paths — the STATE push on this channel and
the FETCH_STATE response — first replace the state with the deserialized
payload (assigning and notifying listeners) and then resolve the readiness
signal, in that order, and only when it is not already resolved; when
readiness has already resolved they still replace the state but emit no
resolve. -/
theorem C9_initialization_paths (d : JSVal → JSVal) (p : JSVal → JSVal → JSVal)
    (s : StoreModel) (ch payload : JSVal)
    (hch : jsStrictEq ch s.channelName = true) :
    (s.readyResolved = false → s.pendingPatches = [] →
      handlePortMessage d p s (mkEnvelope STATE_TYPE ch payload) =
        ({ s with state := d payload, readyResolved := true, pendingPatches := [] },
          Act.deserializeAttempt payload :: Act.assign (d payload) ::
            (s.listeners.map Act.invoke ++ [Act.resolveReady]))) ∧
    (s.readyResolved = true →
      handlePortMessage d p s (mkEnvelope STATE_TYPE ch payload) =
        ({ s with state := d payload },
          Act.deserializeAttempt payload :: Act.assign (d payload) ::
            s.listeners.map Act.invoke)) ∧
    (∀ ch2 : JSVal, s.readyResolved = false → s.pendingPatches = [] →
      initializeStore d p s (mkEnvelope FETCH_STATE_TYPE ch2 payload) =
        ({ s with state := d payload, readyResolved := true, pendingPatches := [] },
          Act.deserializeAttempt payload :: Act.assign (d payload) ::
            (s.listeners.map Act.invoke ++ [Act.resolveReady]))) ∧
    (∀ ch2 : JSVal, s.readyResolved = true →
      initializeStore d p s (mkEnvelope FETCH_STATE_TYPE ch2 payload) =
        ({ s with state := d payload },
          Act.deserializeAttempt payload :: Act.assign (d payload) ::
            s.listeners.map Act.invoke)) := by
  refine ⟨fun hrr hpend => ?_, fun hrr => ?_, fun ch2 hrr hpend => ?_, fun ch2 hrr => ?_⟩
  · simp [handlePortMessage, shouldDeserialize, mkEnvelope, getProp, lookupField,
      truthy, isStringVal, hch, deserializedMessage, setField, portListenerBody,
      jsStrictEq_str, replaceState, resolveReadiness, hrr, hpend, drainPatches]
  · simp [handlePortMessage, shouldDeserialize, mkEnvelope, getProp, lookupField,
      truthy, isStringVal, hch, deserializedMessage, setField, portListenerBody,
      jsStrictEq_str, replaceState, resolveReadiness, hrr, drainPatches]
  · simp [initializeStore, mkEnvelope, getProp, lookupField, truthy, isStringVal,
      jsStrictEq_str, replaceState, resolveReadiness, hrr, hpend, drainPatches]
  · simp [initializeStore, mkEnvelope, getProp, lookupField, truthy, isStringVal,
      jsStrictEq_str, replaceState, resolveReadiness, hrr, drainPatches]

/-- Witness for C9 at a concrete pending store on channel "main" with one
listener: the STATE push and the FETCH_STATE response both assign the
deserialized payload, notify the listener, then resolve readiness. -/
theorem C9_initialization_paths_witness :
    (handlePortMessage (fun v => v) (fun st _ => st)
        { initialStore (.str "main") (.num 0) with listeners := [1] }
        (mkEnvelope STATE_TYPE (.str "main") (.num 7)) =
      ({ initialStore (.str "main") (.num 0) with listeners := [1], state := .num 7, readyResolved := true },
        Act.deserializeAttempt (.num 7) :: Act.assign (.num 7) ::
          ([1].map Act.invoke ++ [Act.resolveReady]))) ∧
    (initializeStore (fun v => v) (fun st _ => st)
        { initialStore (.str "main") (.num 0) with listeners := [1] }
        (mkEnvelope FETCH_STATE_TYPE (.str "main") (.num 9)) =
      ({ initialStore (.str "main") (.num 0) with listeners := [1], state := .num 9, readyResolved := true },
        Act.deserializeAttempt (.num 9) :: Act.assign (.num 9) ::
          ([1].map Act.invoke ++ [Act.resolveReady]))) := by
  have h := C9_initialization_paths (fun v => v) (fun st _ => st)
    { initialStore (.str "main") (.num 0) with listeners := [1] } (.str "main") (.num 7) rfl
  have h2 := C9_initialization_paths (fun v => v) (fun st _ => st)
    { initialStore (.str "main") (.num 0) with listeners := [1] } (.str "main") (.num 9) rfl
  exact ⟨h.1 rfl rfl, h2.2.2.1 (.str "main") rfl rfl⟩

end WebextRedux
